import Mathlib

/-!
Shallow embedding of the step-segmentation and problem-classification core of
the ThoughtChain repository (src/core/cot_generator.py, class CoTGenerator).

Python strings are modeled as Lean `String` (with the underlying `List Char`
used for character-level operations).  Python `str.lower()` is modeled by
mapping `Char.toLower` over the characters (identical behaviour on the ASCII
text the component manipulates).  Python `str.strip()` is `pyStrip`,
`split('\x5cn')` is `splitNl`, and `re.split` on the sentence-terminator class
is `splitTerms`.  The 25 step-marker regular expressions of `parse_steps` use
only literals (case-insensitive), the classes `[:\x5c-]?`, `[.)]`, `[,\x5cs]`, and
the quantified atoms `\x5cd+`, `\x5cs+`, `\x5cs*`; in every pattern each quantified
atom is followed by an atom drawn from a disjoint character class (or ends the
pattern), so greedy maximal-munch matching is equivalent to full backtracking
search and the matcher below is implemented deterministically.  Dictionaries
`{"step_number": str(n), "content": c, "type": t}` are modeled by the `Step`
structure; the step number is kept as the `Nat` counter whose decimal
rendering Python stores (the rendering is injective, so ordering and equality
statements are unaffected).
-/

namespace CotGen

/-- Python `str.strip()` whitespace class (ASCII): space, tab, newline,
carriage return, vertical tab, form feed. -/
def isPySpace (c : Char) : Bool :=
  c = ' ' || c = '\t' || c = '\n' || c = '\r' || c = '\x0b' || c = '\x0c'

/-- `str.strip()` on a character list: drop whitespace from both ends. -/
def pyStripL (cs : List Char) : List Char :=
  ((cs.dropWhile isPySpace).reverse.dropWhile isPySpace).reverse

/-- `str.strip()`. -/
def pyStrip (s : String) : String :=
  ⟨pyStripL s.data⟩

/-- Python `needle in hay` substring test (contiguous occurrence). -/
def listInfix (needle : List Char) : List Char → Bool
  | [] => needle.isPrefixOf []
  | c :: cs => needle.isPrefixOf (c :: cs) || listInfix needle cs

/-- `keyword in text_lower` for one keyword, `text_lower` already lowercased. -/
def kwIn (text_lower : List Char) (kw : String) : Bool :=
  listInfix kw.data text_lower

/-- `math_keywords` of `_detect_problem_type`. -/
def math_keywords : List String :=
  ["calculate", "solve", "equation", "multiply", "divide", "add", "subtract",
   "percent", "%", "fraction", "decimal", "number", "sum", "difference",
   "mph", "miles", "hours", "minutes", "seconds", "distance", "time",
   "workers", "days", "build", "complete", "fence", "perimeter", "area",
   "price", "cost", "discount", "tax", "total", "amount"]

/-- `logic_keywords` of `_detect_problem_type`. -/
def logic_keywords : List String :=
  ["if", "then", "either", "or", "all", "some", "none", "always", "never",
   "taller", "shorter", "faster", "slower", "before", "after", "position",
   "race", "finished", "student", "passed", "class", "roses", "flowers",
   "conclude", "therefore", "because", "since", "given", "assume"]

/-- `riddle_keywords` of `_detect_problem_type`. -/
def riddle_keywords : List String :=
  ["riddle", "what am i", "guess", "mystery", "puzzle", "keys", "locks",
   "space", "room", "enter", "outside", "wetter", "dries", "young", "old",
   "eye", "cannot see", "take", "leave behind", "clue", "hint"]

/-- `CoTGenerator._detect_problem_type`: lowercase the problem text, then test
the math, logic and riddle trigger lists in that order; default "general". -/
def detect_problem_type (problem : String) : String :=
  if math_keywords.any (kwIn (problem.data.map Char.toLower)) then "math"
  else if logic_keywords.any (kwIn (problem.data.map Char.toLower)) then "logic"
  else if riddle_keywords.any (kwIn (problem.data.map Char.toLower)) then "riddle"
  else "general"

/-- Calculation indicators of `_classify_step`.  The last two entries are the
mojibake multiplication and division signs present verbatim in the source. -/
def calc_keywords : List String :=
  ["calculate", "multiply", "divide", "add", "subtract",
   "formula", "equation", "=", "+", "-", "*", "/", "ร", "รท"]

/-- Conclusion indicators of `_classify_step`. -/
def conclusion_keywords : List String :=
  ["therefore", "so", "conclude", "answer", "result",
   "thus", "hence", "finally", "in conclusion", "as a result"]

/-- Assumption indicators of `_classify_step`. -/
def assumption_keywords : List String :=
  ["assume", "given", "known", "fact", "premise",
   "suppose", "let", "if", "since", "because"]

/-- Analysis indicators of `_classify_step`. -/
def analysis_keywords : List String :=
  ["analyze", "examine", "consider", "think", "reason",
   "understand", "identify", "determine", "find"]

/-- `CoTGenerator._classify_step`: test the four keyword families on the
lowercased content in fixed order; default "reasoning".  (The source binds
`content_lower` once; it is inlined here, which is semantically identical.) -/
def classify_step (step_content : String) : String :=
  if calc_keywords.any (kwIn (step_content.data.map Char.toLower)) then "calculation"
  else if conclusion_keywords.any (kwIn (step_content.data.map Char.toLower)) then "conclusion"
  else if assumption_keywords.any (kwIn (step_content.data.map Char.toLower)) then "assumption"
  else if analysis_keywords.any (kwIn (step_content.data.map Char.toLower)) then "analysis"
  else "reasoning"

/-- One parsed reasoning step: the dictionary
`{"step_number": str(n), "content": c, "type": t}`. -/
structure Step where
  step_number : Nat
  content : String
  type : String
deriving DecidableEq, Repr

/-- `CoTGenerator._create_step_data`: drop empty or very short content
(trimmed length below 5), otherwise build the step record; the kind is
computed from the untrimmed content, the stored content is trimmed. -/
def create_step_data (content : String) (step_number : Nat) : Option Step :=
  if content = "" || (pyStrip content).length < 5 then none
  else some ⟨step_number, pyStrip content, classify_step content⟩

/-- Elements of the step-marker pattern language used by `parse_steps`:
case-insensitive literal, one-character class, optional one-character class,
`\x5cd+`, `\x5cs+`, `\x5cs*`, and the class `[,\x5cs]`. -/
inductive Pat where
  | lit : Char → Pat
  | oneOf : List Char → Pat
  | opt : List Char → Pat
  | digits : Pat
  | spaces1 : Pat
  | spaces0 : Pat
  | commaOrSpace : Pat
deriving Repr

/-- A sequence of case-insensitive literal characters. -/
def lits (s : String) : List Pat :=
  s.data.map Pat.lit

/-- Match a pattern against a prefix of the character list (maximal munch;
equivalent to regex search for the pattern set below, see the file header). -/
def matchHere : List Pat → List Char → Bool
  | [], _ => true
  | Pat.lit _ :: _, [] => false
  | Pat.lit c :: ps, x :: xs => x.toLower = c.toLower && matchHere ps xs
  | Pat.oneOf _ :: _, [] => false
  | Pat.oneOf l :: ps, x :: xs => l.contains x && matchHere ps xs
  | Pat.opt _ :: ps, [] => matchHere ps []
  | Pat.opt l :: ps, x :: xs =>
      if l.contains x then matchHere ps xs else matchHere ps (x :: xs)
  | Pat.digits :: ps, xs =>
      !(xs.takeWhile Char.isDigit).isEmpty && matchHere ps (xs.dropWhile Char.isDigit)
  | Pat.spaces1 :: ps, xs =>
      !(xs.takeWhile isPySpace).isEmpty && matchHere ps (xs.dropWhile isPySpace)
  | Pat.spaces0 :: ps, xs => matchHere ps (xs.dropWhile isPySpace)
  | Pat.commaOrSpace :: _, [] => false
  | Pat.commaOrSpace :: ps, x :: xs => (x = ',' || isPySpace x) && matchHere ps xs

/-- `re.search`: try the pattern at every start position. -/
def searchFrom (ps : List Pat) : List Char → Bool
  | [] => matchHere ps []
  | x :: xs => matchHere ps (x :: xs) || searchFrom ps xs

/-- `re.search(pattern, line, re.IGNORECASE)` as a Boolean. -/
def reSearch (ps : List Pat) (line : String) : Bool :=
  searchFrom ps line.data

/-- The 25 `step_patterns` of `parse_steps`, in source order. -/
def step_patterns : List (List Pat) :=
  [ lits "Step" ++ [Pat.spaces1, Pat.digits, Pat.opt [':', '-'], Pat.spaces0],
    [Pat.digits, Pat.oneOf ['.', ')'], Pat.spaces0],
    lits "First" ++ [Pat.commaOrSpace],
    lits "Second" ++ [Pat.commaOrSpace],
    lits "Third" ++ [Pat.commaOrSpace],
    lits "Fourth" ++ [Pat.commaOrSpace],
    lits "Fifth" ++ [Pat.commaOrSpace],
    lits "Next" ++ [Pat.commaOrSpace],
    lits "Then" ++ [Pat.commaOrSpace],
    lits "Now" ++ [Pat.commaOrSpace],
    lits "Finally" ++ [Pat.commaOrSpace],
    lits "Therefore" ++ [Pat.commaOrSpace],
    lits "So" ++ [Pat.commaOrSpace],
    lits "Thus" ++ [Pat.commaOrSpace],
    lits "Hence" ++ [Pat.commaOrSpace],
    lits "As" ++ [Pat.spaces1] ++ lits "a" ++ [Pat.spaces1] ++ lits "result" ++ [Pat.commaOrSpace],
    lits "In" ++ [Pat.spaces1] ++ lits "conclusion" ++ [Pat.commaOrSpace],
    lits "To" ++ [Pat.spaces1] ++ lits "summarize" ++ [Pat.commaOrSpace],
    lits "Let" ++ [Pat.spaces1] ++ lits "me" ++ [Pat.spaces1],
    lits "I" ++ [Pat.spaces1] ++ lits "need" ++ [Pat.spaces1] ++ lits "to" ++ [Pat.spaces1],
    lits "I" ++ [Pat.spaces1] ++ lits "will" ++ [Pat.spaces1],
    lits "I" ++ [Pat.spaces1] ++ lits "should" ++ [Pat.spaces1],
    lits "I" ++ [Pat.spaces1] ++ lits "can" ++ [Pat.spaces1],
    lits "We" ++ [Pat.spaces1] ++ lits "can" ++ [Pat.spaces1],
    lits "We" ++ [Pat.spaces1] ++ lits "need" ++ [Pat.spaces1] ++ lits "to" ++ [Pat.spaces1] ]

/-- `any(re.search(pattern, line, re.IGNORECASE) for pattern in step_patterns)`. -/
def is_new_step (line : String) : Bool :=
  step_patterns.any (fun p => reSearch p line)

/-- The mutable loop state of `parse_steps`: the accumulated `steps`, the
accumulator buffer `current_step`, and the counter `step_number`. -/
structure ParseState where
  steps : List Step
  current_step : String
  step_number : Nat
deriving DecidableEq, Repr

/-- One iteration of the line loop of `parse_steps`.  (The source rebinds
`line = line.strip()` once; `pyStrip raw_line` is spelled out at each use
here, which is semantically identical.) -/
def processLine (st : ParseState) (raw_line : String) : ParseState :=
  if pyStrip raw_line = "" then st
  else if is_new_step (pyStrip raw_line) ∧ st.current_step ≠ "" then
    match create_step_data (pyStrip st.current_step) st.step_number with
    | some step_data => ⟨st.steps ++ [step_data], pyStrip raw_line, st.step_number + 1⟩
    | none => ⟨st.steps, pyStrip raw_line, st.step_number⟩
  else if st.current_step ≠ "" then
    ⟨st.steps, st.current_step ++ " " ++ pyStrip raw_line, st.step_number⟩
  else
    ⟨st.steps, pyStrip raw_line, st.step_number⟩

/-- Python `cot_response.split('\x5cn')` over character lists. -/
def splitNl : List Char → List Char → List (List Char)
  | [], acc => [acc.reverse]
  | c :: cs, acc =>
      if c = '\n' then acc.reverse :: splitNl cs []
      else splitNl cs (c :: acc)

/-- After the line loop of `parse_steps`: close out any remaining accumulator
content as a final step ("Add the last step" in the source). -/
def close_final (st : ParseState) : List Step :=
  if st.current_step ≠ "" then
    match create_step_data (pyStrip st.current_step) st.step_number with
    | some step_data => st.steps ++ [step_data]
    | none => st.steps
  else st.steps

/-- The line-oriented phase of `parse_steps`: run the loop over all lines and
then close out the remaining accumulator content as a final step. -/
def line_steps (cot_response : String) : List Step :=
  close_final (((splitNl cot_response.data []).map String.mk).foldl processLine ⟨[], "", 1⟩)

/-- Sentence terminator class `[.!?]` of `_fallback_parsing`. -/
def isTerm (c : Char) : Bool :=
  c = '.' || c = '!' || c = '?'

/-- `re.split(r'[.!?]+', s)`: pieces between maximal terminator runs, with an
empty piece when the text starts or ends with a terminator run.  `acc` is the
reversed current piece; `in_run` records being inside a terminator run. -/
def splitTerms : List Char → List Char → Bool → List (List Char)
  | [], acc, _ => [acc.reverse]
  | c :: cs, acc, in_run =>
      if isTerm c then
        if in_run then splitTerms cs acc true
        else acc.reverse :: splitTerms cs [] true
      else
        if in_run then splitTerms cs [c] false
        else splitTerms cs (c :: acc) false

/-- The `enumerate(sentences, 1)` loop of `_fallback_parsing`: trim each
sentence, keep it only when longer than 10 characters, and number the
survivors by their position `i` among all candidate sentences. -/
def fallback_aux : Nat → List String → List Step
  | _, [] => []
  | i, sentence :: rest =>
      if (pyStrip sentence).length > 10 then
        ⟨i, pyStrip sentence, classify_step (pyStrip sentence)⟩ :: fallback_aux (i + 1) rest
      else fallback_aux (i + 1) rest

/-- `CoTGenerator._fallback_parsing`: split on sentence terminators and emit
the substantial sentences as steps. -/
def fallback_parsing (cot_response : String) : List Step :=
  fallback_aux 1 ((splitTerms cot_response.data [] false).map String.mk)

/-- The body of the `try` block of `parse_steps`: line-oriented segmentation,
falling back to sentence splitting when it yields no steps. -/
def parse_steps_body (cot_response : String) : List Step :=
  if line_steps cot_response = [] then fallback_parsing cot_response
  else line_steps cot_response

/-- The single raw-response step built by the `except` handler. -/
def absolute_fallback (cot_response : String) : List Step :=
  [⟨1, pyStrip cot_response, "reasoning"⟩]

/-- The `try/except` shape of `parse_steps`: the body's outcome when it
succeeds, the absolute single-step fallback when it raised. -/
def run_with_catch (body : Except Unit (List Step)) (cot_response : String) : List Step :=
  match body with
  | Except.ok steps => steps
  | Except.error _ => absolute_fallback cot_response

/-- `CoTGenerator.parse_steps`.  Every operation of the body is total on
strings, so in the embedding the body always succeeds. -/
def parse_steps (cot_response : String) : List Step :=
  run_with_catch (Except.ok (parse_steps_body cot_response)) cot_response

/-! ## Helper lemmas -/

theorem create_step_data_number (c : String) (n : Nat) (sd : Step)
    (h : create_step_data c n = some sd) : sd.step_number = n := by
  unfold create_step_data at h
  split at h
  · exact Option.noConfusion h
  · cases h; rfl

theorem pyStripL_nil (cs : List Char) (h : ∀ c ∈ cs, isPySpace c = true) :
    pyStripL cs = [] := by
  unfold pyStripL
  rw [List.dropWhile_eq_nil_iff.mpr h]
  rfl

theorem pyStrip_mk_empty (l : List Char) (h : ∀ c ∈ l, isPySpace c = true) :
    pyStrip (String.mk l) = "" := by
  unfold pyStrip
  rw [show (String.mk l).data = l from rfl, pyStripL_nil l h]

theorem splitNl_spaces : ∀ (cs acc : List Char), (∀ c ∈ cs, isPySpace c = true) →
    (∀ c ∈ acc, isPySpace c = true) →
    ∀ p ∈ splitNl cs acc, ∀ c ∈ p, isPySpace c = true := by
  intro cs
  induction cs with
  | nil =>
    intro acc _ hacc p hp c hc
    simp only [splitNl, List.mem_singleton] at hp
    subst hp
    exact hacc c (List.mem_reverse.mp hc)
  | cons x xs ih =>
    intro acc hcs hacc p hp c hc
    have hx : isPySpace x = true := hcs x (List.mem_cons_self x xs)
    have hxs : ∀ d ∈ xs, isPySpace d = true := fun d hd => hcs d (List.mem_cons_of_mem x hd)
    simp only [splitNl] at hp
    by_cases hnl : x = '\n'
    · rw [if_pos hnl] at hp
      rcases List.mem_cons.mp hp with rfl | hmem
      · exact hacc c (List.mem_reverse.mp hc)
      · exact ih [] hxs (by intro d hd; cases hd) p hmem c hc
    · rw [if_neg hnl] at hp
      refine ih (x :: acc) hxs ?_ p hp c hc
      intro d hd
      rcases List.mem_cons.mp hd with rfl | hd2
      · exact hx
      · exact hacc d hd2

theorem processLine_space (st : ParseState) (raw : String) (h : pyStrip raw = "") :
    processLine st raw = st := by
  unfold processLine
  rw [if_pos h]

theorem foldl_processLine_space : ∀ (ls : List String) (st : ParseState),
    (∀ l ∈ ls, pyStrip l = "") → ls.foldl processLine st = st := by
  intro ls
  induction ls with
  | nil => intro st _; rfl
  | cons x xs ih =>
    intro st h
    rw [List.foldl_cons, processLine_space st x (h x (List.mem_cons_self x xs))]
    exact ih st (fun l hl => h l (List.mem_cons_of_mem x hl))

theorem isPySpace_not_term (c : Char) (h : isPySpace c = true) : isTerm c = false := by
  unfold isPySpace at h
  simp only [Bool.or_eq_true, decide_eq_true_eq] at h
  rcases h with ((((h | h) | h) | h) | h) | h <;> subst h <;> rfl

theorem splitTerms_no_term : ∀ (cs acc : List Char), (∀ c ∈ cs, isTerm c = false) →
    splitTerms cs acc false = [acc.reverse ++ cs] := by
  intro cs
  induction cs with
  | nil => intro acc _; simp [splitTerms]
  | cons x xs ih =>
    intro acc h
    have hx : isTerm x = false := h x (List.mem_cons_self x xs)
    simp only [splitTerms, hx]
    rw [ih (x :: acc) (fun c hc => h c (List.mem_cons_of_mem x hc))]
    simp

/-- The loop invariant of the line phase: the steps collected so far carry the
ordinals 1..k in order and the counter stands at k+1. -/
def StepsInv (st : ParseState) : Prop :=
  st.steps.map Step.step_number = List.range' 1 st.steps.length ∧
  st.step_number = st.steps.length + 1

theorem processLine_inv (st : ParseState) (raw : String) (h : StepsInv st) :
    StepsInv (processLine st raw) := by
  obtain ⟨h1, h2⟩ := h
  unfold processLine
  split
  · exact ⟨h1, h2⟩
  · split
    · split
      · next step_data heq =>
        have hn := create_step_data_number _ _ _ heq
        constructor
        · show (st.steps ++ [step_data]).map Step.step_number
              = List.range' 1 (st.steps ++ [step_data]).length
          rw [List.map_append, h1, List.length_append]
          simp only [List.map_cons, List.map_nil, List.length_cons, List.length_nil,
            Nat.zero_add]
          rw [hn, h2, List.range'_1_concat, Nat.add_comm 1 st.steps.length]
        · show st.step_number + 1 = (st.steps ++ [step_data]).length + 1
          rw [List.length_append, h2]
          simp
      · exact ⟨h1, h2⟩
    · split
      · exact ⟨h1, h2⟩
      · exact ⟨h1, h2⟩

theorem foldl_processLine_inv : ∀ (ls : List String) (st : ParseState),
    StepsInv st → StepsInv (ls.foldl processLine st) := by
  intro ls
  induction ls with
  | nil => intro st h; exact h
  | cons x xs ih => intro st h; exact ih _ (processLine_inv st x h)

theorem close_final_range (st : ParseState) (h : StepsInv st) :
    (close_final st).map Step.step_number = List.range' 1 (close_final st).length := by
  obtain ⟨h1, h2⟩ := h
  unfold close_final
  split
  · split
    · next step_data heq =>
      have hn := create_step_data_number _ _ _ heq
      rw [List.map_append, h1, List.length_append]
      simp only [List.map_cons, List.map_nil, List.length_cons, List.length_nil,
        Nat.zero_add]
      rw [hn, h2, List.range'_1_concat, Nat.add_comm 1 st.steps.length]
    · exact h1
  · exact h1

theorem line_steps_range (s : String) :
    (line_steps s).map Step.step_number = List.range' 1 (line_steps s).length := by
  unfold line_steps
  exact close_final_range _ (foldl_processLine_inv _ _ ⟨rfl, rfl⟩)

theorem fallback_aux_bound : ∀ (l : List String) (i : Nat) (st : Step),
    st ∈ fallback_aux i l → i ≤ st.step_number := by
  intro l
  induction l with
  | nil => intro i st h; simp [fallback_aux] at h
  | cons x xs ih =>
    intro i st h
    unfold fallback_aux at h
    split at h
    · rcases List.mem_cons.mp h with rfl | hm
      · exact Nat.le_refl i
      · exact Nat.le_of_succ_le (ih (i + 1) st hm)
    · exact Nat.le_of_succ_le (ih (i + 1) st h)

theorem fallback_aux_pairwise : ∀ (l : List String) (i : Nat),
    (fallback_aux i l).Pairwise (fun a b : Step => a.step_number < b.step_number) := by
  intro l
  induction l with
  | nil => intro i; simp [fallback_aux]
  | cons x xs ih =>
    intro i
    unfold fallback_aux
    split
    · refine List.Pairwise.cons ?_ (ih (i + 1))
      intro b hb
      exact Nat.lt_of_succ_le (fallback_aux_bound xs (i + 1) b hb)
    · exact ih (i + 1)

theorem fallback_pairwise (s : String) :
    ((fallback_parsing s).map Step.step_number).Pairwise (· < ·) := by
  rw [List.pairwise_map]
  exact fallback_aux_pairwise _ 1

theorem listInfix_singleton (a : Char) : ∀ (l : List Char), a ∈ l → listInfix [a] l = true := by
  intro l
  induction l with
  | nil => intro h; cases h
  | cons x xs ih =>
    intro h
    unfold listInfix
    rcases List.mem_cons.mp h with rfl | hmem
    · simp [List.isPrefixOf]
    · simp [ih hmem]

theorem classify_calc_of_char (content : String) (c : Char) (hmem : c ∈ content.data)
    (hlow : Char.toLower c = c) (hkw : (⟨[c]⟩ : String) ∈ calc_keywords) :
    classify_step content = "calculation" := by
  have key : calc_keywords.any (kwIn (content.data.map Char.toLower)) = true := by
    rw [List.any_eq_true]
    refine ⟨⟨[c]⟩, hkw, ?_⟩
    show listInfix [c] (content.data.map Char.toLower) = true
    apply listInfix_singleton
    have h2 := List.mem_map_of_mem Char.toLower hmem
    rwa [hlow] at h2
  simp [classify_step, key]

/-! ## Claim theorems -/

/-- Claim C1, counterexample: on the non-empty input "Hi" the segmenter
returns the empty sequence, not a single step with ordinal 1 and kind
reasoning as claimed: the line phase drops the 2-character accumulator
(below the 5-character minimum), the sentence fallback drops the single
2-character sentence (not above 10 characters), and no absolute fallback
runs in the exception-free path. -/
theorem c1_counterexample : parse_steps "Hi" = [] ∧ ("Hi" : String) ≠ "" := by
  constructor
  · decide
  · decide

/-- Claim C1 as amended: for every input, when line-oriented segmentation
finds no steps the sentence-splitting fallback decides the result, and when
that fallback also yields zero steps the result is the empty sequence — the
single-step absolute fallback exists only in the exception handler.  Stated
as: the output is empty exactly when both phases produce zero steps. -/
theorem c1_amended_no_absolute_fallback (s : String) :
    parse_steps s = [] ↔ (line_steps s = [] ∧ fallback_parsing s = []) := by
  unfold parse_steps run_with_catch parse_steps_body
  by_cases h : line_steps s = [] <;> simp [h]

/-- Claim C2, counterexample: the input of concrete scenario B does not
produce three sentence-fallback steps — "Therefore " inside the single line
matches a new-step marker pattern, so the line phase emits one step and the
fallback never runs. -/
theorem c2_counterexample :
    (parse_steps "The cat sat on the mat. It was happy. Therefore it purred.").length ≠ 3 := by
  decide

/-- Claim C2 as amended: for that input, segmentation yields exactly one step
covering the whole line, classified conclusion (the marker patterns are
searched anywhere in the line, so "Therefore it purred." makes the only line
a marker line, and the one accumulated step survives the length filter). -/
theorem c2_amended_single_marker_step :
    parse_steps "The cat sat on the mat. It was happy. Therefore it purred."
      = [⟨1, "The cat sat on the mat. It was happy. Therefore it purred.", "conclusion"⟩] := by
  decide

/-- Claim C3: any input whose lowercased text contains a math trigger
substring is classified math, regardless of which logic or riddle triggers
it also contains, because the math list is tested first. -/
theorem c3_math_precedence (problem : String)
    (h : math_keywords.any (kwIn (problem.data.map Char.toLower)) = true) :
    detect_problem_type problem = "math" := by
  simp [detect_problem_type, h]

/-- Witness for C3 at the concrete scenario-C input, which contains the math
trigger "mph" and the logic trigger "if". -/
theorem c3_math_precedence_witness :
    math_keywords.any (kwIn (("If a train leaves at 3 PM traveling at 60 mph...").data.map Char.toLower)) = true ∧
    detect_problem_type "If a train leaves at 3 PM traveling at 60 mph..." = "math" :=
  ⟨by decide, c3_math_precedence "If a train leaves at 3 PM traveling at 60 mph..." (by decide)⟩

/-- Claim C4, counterexample: on the input ".\nSo,\nSo,\nSo,\nSo," the line
phase drops every short accumulator, and the sentence fallback numbers its
single survivor by its position among all split candidates — the leading
empty sentence is candidate 1, so the only emitted step has ordinal 2, not
1: ordinals are not gap-free 1-based in the fallback. -/
theorem c4_counterexample :
    (parse_steps ".\nSo,\nSo,\nSo,\nSo,").map Step.step_number = [2] ∧ (2 : Nat) ≠ 1 := by
  constructor
  · decide
  · decide

/-- Claim C4 as amended: ordinals are strictly increasing for every input,
and in the line-oriented phase they are exactly the gap-free 1-based sequence
1..n; in the sentence fallback each survivor is numbered by its 1-based
position among all candidate sentences, so discarded candidates leave gaps. -/
theorem c4_amended_ordinals (s : String) :
    ((parse_steps s).map Step.step_number).Pairwise (· < ·) ∧
    (line_steps s).map Step.step_number = List.range' 1 (line_steps s).length := by
  refine ⟨?_, line_steps_range s⟩
  show ((parse_steps_body s).map Step.step_number).Pairwise (· < ·)
  unfold parse_steps_body
  by_cases h : line_steps s = []
  · rw [if_pos h]
    exact fallback_pairwise s
  · rw [if_neg h, line_steps_range s]
    exact List.pairwise_lt_range' 1 _

/-- Claim C5 (concrete scenario A): the two-line numbered input yields
exactly two steps, the first classified calculation (contains "+"), the
second classified conclusion (contains "answer"). -/
theorem c5_scenario_a :
    parse_steps "Step 1: I need to find 2+2.\nStep 2: The answer is 4."
      = [⟨1, "Step 1: I need to find 2+2.", "calculation"⟩,
         ⟨2, "Step 2: The answer is 4.", "conclusion"⟩] := by
  decide

/-- Claim C6: segmentation is a pure function of its input string — equal
inputs give identical ordered step sequences, with no dependence on prior
invocations (the embedding carries no state between calls). -/
theorem c6_deterministic (s₁ s₂ : String) (h : s₁ = s₂) :
    parse_steps s₁ = parse_steps s₂ := by
  rw [h]

/-- Witness for C6 at a concrete input. -/
theorem c6_deterministic_witness :
    ("Step 1: go forth." : String) = "Step 1: go forth." ∧
    parse_steps "Step 1: go forth." = parse_steps "Step 1: go forth." :=
  ⟨rfl, c6_deterministic "Step 1: go forth." "Step 1: go forth." rfl⟩

/-- Claim C7: the problem classifier is total — every string maps to exactly
one of the four categories — and any input matching none of the trigger
lists (in particular the empty string) yields "general". -/
theorem c7_classifier_total (p : String) :
    (detect_problem_type p = "math" ∨ detect_problem_type p = "logic" ∨
     detect_problem_type p = "riddle" ∨ detect_problem_type p = "general") ∧
    ((math_keywords.any (kwIn (p.data.map Char.toLower)) = false ∧
      logic_keywords.any (kwIn (p.data.map Char.toLower)) = false ∧
      riddle_keywords.any (kwIn (p.data.map Char.toLower)) = false) →
      detect_problem_type p = "general") := by
  constructor
  · unfold detect_problem_type
    split
    · exact Or.inl rfl
    · split
      · exact Or.inr (Or.inl rfl)
      · split
        · exact Or.inr (Or.inr (Or.inl rfl))
        · exact Or.inr (Or.inr (Or.inr rfl))
  · rintro ⟨h1, h2, h3⟩
    simp [detect_problem_type, h1, h2, h3]

/-- Witness for C7 at the empty string, which matches no trigger list. -/
theorem c7_classifier_total_witness :
    (math_keywords.any (kwIn (("" : String).data.map Char.toLower)) = false ∧
     logic_keywords.any (kwIn (("" : String).data.map Char.toLower)) = false ∧
     riddle_keywords.any (kwIn (("" : String).data.map Char.toLower)) = false) ∧
    detect_problem_type "" = "general" :=
  ⟨⟨by decide, by decide, by decide⟩,
   (c7_classifier_total "").2 ⟨by decide, by decide, by decide⟩⟩

/-- Claim C8: the try/except shape of `parse_steps` — any error outcome of
the body is caught and replaced by the single-step absolute fallback (ordinal
1, kind reasoning, content the entire trimmed input), and in the
exception-free embedding the body's steps pass through unchanged, so
segmentation never propagates a failure to its caller. -/
theorem c8_exception_handler (s : String) (b : Except Unit (List Step)) :
    (∀ e : Unit, b = Except.error e →
      run_with_catch b s = [⟨1, pyStrip s, "reasoning"⟩]) ∧
    parse_steps s = parse_steps_body s := by
  constructor
  · intro e he
    subst he
    rfl
  · rfl

/-- Witness for C8 on a concrete error outcome and input. -/
theorem c8_exception_handler_witness :
    run_with_catch (Except.error ()) "boom" = [⟨1, pyStrip "boom", "reasoning"⟩] ∧
    parse_steps "boom" = parse_steps_body "boom" :=
  ⟨(c8_exception_handler "boom" (Except.error ())).1 () rfl,
   (c8_exception_handler "boom" (Except.error ())).2⟩

/-- Claim C9: for every input that is empty or consists only of whitespace,
`parse_steps` returns the empty sequence — every line trims to nothing, so
the line phase emits no step, and the single whitespace sentence of the
fallback is not above the 10-character minimum. -/
theorem c9_blank_input_empty (s : String) (h : ∀ c ∈ s.data, isPySpace c = true) :
    parse_steps s = [] := by
  have hlines : ∀ l ∈ (splitNl s.data []).map String.mk, pyStrip l = "" := by
    intro l hl
    rcases List.mem_map.mp hl with ⟨p, hp, rfl⟩
    exact pyStrip_mk_empty p (splitNl_spaces s.data [] h (by intro d hd; cases hd) p hp)
  have hline : line_steps s = [] := by
    unfold line_steps
    rw [foldl_processLine_space _ _ hlines]
    rfl
  have hfb : fallback_parsing s = [] := by
    unfold fallback_parsing
    rw [splitTerms_no_term s.data [] (fun c hc => isPySpace_not_term c (h c hc))]
    simp [fallback_aux, pyStrip_mk_empty s.data h]
  show parse_steps_body s = []
  unfold parse_steps_body
  rw [hline, hfb]
  simp

/-- Witness for C9 at a concrete whitespace-only input. -/
theorem c9_blank_input_empty_witness :
    (∀ c ∈ ("  \n\t " : String).data, isPySpace c = true) ∧ parse_steps "  \n\t " = [] :=
  ⟨by decide, c9_blank_input_empty "  \n\t " (by decide)⟩

/-- Claim C10: the calculation family is tested first and its keywords are
matched as substrings, so any step content containing one of the characters
"=", "+", "-", "*", "/" anywhere — hyphens inside ordinary words included —
is classified calculation, whatever other keywords are present. -/
theorem c10_symbol_calculation (content : String)
    (h : '=' ∈ content.data ∨ '+' ∈ content.data ∨ '-' ∈ content.data ∨
         '*' ∈ content.data ∨ '/' ∈ content.data) :
    classify_step content = "calculation" := by
  rcases h with h | h | h | h | h
  · exact classify_calc_of_char content '=' h (by decide) (by decide)
  · exact classify_calc_of_char content '+' h (by decide) (by decide)
  · exact classify_calc_of_char content '-' h (by decide) (by decide)
  · exact classify_calc_of_char content '*' h (by decide) (by decide)
  · exact classify_calc_of_char content '/' h (by decide) (by decide)

/-- Witness for C10: a hyphen inside an ordinary word beats the conclusion
keyword "answer" also present. -/
theorem c10_symbol_calculation_witness :
    ('-' ∈ ("The well-known answer" : String).data) ∧
    classify_step "The well-known answer" = "calculation" :=
  ⟨by decide,
   c10_symbol_calculation "The well-known answer" (Or.inr (Or.inr (Or.inl (by decide))))⟩

end CotGen
